import Mathlib

set_option linter.unusedVariables false
set_option maxRecDepth 8192

/-
Verification of the download middleware (middleware/download.js).

The file is organised as a shallow embedding: the data model (registrations,
the per-event download-lock record), the pure export/contact-card generation
helpers, and the request handler `handleDownload` are translated from the
JavaScript source; the theorems below settle the specification claims
against those definitions.
-/

namespace Impetus9

/-! ## Data model -/

/-- One team member of a registration (fields `memName`, `memRoll`,
`memPhone`; an absent/blank field is the empty string). -/
structure TeamMember where
  memName : String
  memRoll : String
  memPhone : String
deriving DecidableEq

/-- One registration document as read from the registration store. -/
structure Registration where
  eventName : String
  teamName : String
  capName : String
  capPhone : String
  capRoll : String
  participantType : String
  createdAt : Nat
  teamMembers : List TeamMember
deriving DecidableEq

/-- The per-event `CoordinatorLog` lock record: `vCardsDownloaded` starts
`false`; the downloader name and time are set by the claim transition. -/
structure LockRecord where
  vCardsDownloaded : Bool
  firstDownloaderName : Option String
  downloadTime : Option Nat
deriving DecidableEq

/-- A freshly created lock record (`CoordinatorLog.create` defaults). -/
def defaultLock : LockRecord := ⟨false, none, none⟩

/-! ## Contact-card (vCard) generation -/

/-- `generateVCard` from the source: the template uses `filename` for both
the FN and N fields and `phone` for TEL; the `name` argument is unused. -/
def generateVCard (name phone filename : String) : String :=
  "BEGIN:VCARD\nVERSION:3.0\nFN:" ++ filename ++ "\nN:;" ++ filename ++
    ";;;\nTEL;TYPE=CELL:" ++ phone ++ "\nEND:VCARD\n"

/-- `capPhone.replace(/\D/g, '')`: keep only digit characters. -/
def digitsOnly (s : String) : String := String.mk (s.data.filter Char.isDigit)

/-- `.slice(-n)`: the last `n` characters of a string (all of it when it is
shorter than `n`). -/
def lastNChars (n : Nat) (s : String) : String :=
  String.mk (s.data.drop (s.data.length - n))

/-- `eventName.substring(0, 2).toLowerCase()`: the first two characters of
the event name, lowercased. -/
def lowerPrefix2 (s : String) : String :=
  String.mk ((s.data.take 2).map Char.toLower)

/-- The per-registration identifier used for card display names:
`eventName.substring(0, 2).toLowerCase()` followed by the captain's roll for
`INTERNAL` registrations, and by `"EXT"` plus the last 8 digits of the
captain's phone otherwise. -/
def uniqueId (eventName : String) (reg : Registration) : String :=
  let pfx := lowerPrefix2 eventName
  if reg.participantType = "INTERNAL" then
    pfx ++ reg.capRoll
  else
    pfx ++ "EXT" ++ lastNChars 8 (digitsOnly reg.capPhone)

/-- The cards emitted for one registration: always the captain card
`<id>-1`, and the `<id>-2` card for the first team member exactly when that
member exists and has a truthy (non-empty) `memPhone`
(`reg.teamMembers && reg.teamMembers[0] && reg.teamMembers[0].memPhone`). -/
def vCardForReg (eventName : String) (reg : Registration) : String :=
  let uid := uniqueId eventName reg
  let cap := generateVCard reg.capName reg.capPhone (uid ++ "-1")
  match reg.teamMembers with
  | [] => cap
  | m :: _ =>
    if m.memPhone = "" then cap
    else cap ++ generateVCard m.memName m.memPhone (uid ++ "-2")

/-- The whole `vCardContent` accumulator: cards of all registrations
concatenated in list order. -/
def vCardContent (eventName : String) (regs : List Registration) : String :=
  regs.foldl (fun acc reg => acc ++ vCardForReg eventName reg) ""

/-! ## Export (worksheet) generation -/

/-- `member.field || '-'`: an existing member's blank field renders as
the dash placeholder. -/
def orDash (s : String) : String := if s = "" then "-" else s

/-- The `maxTeamMembers` fold over the registrations. -/
def maxTeamMembers (regs : List Registration) : Nat :=
  regs.foldl (fun acc reg => max acc reg.teamMembers.length) 0

/-- The six fixed column headers. -/
def fixedHeaders : List String :=
  ["Team Name", "Captain Name", "Captain Phone", "Captain Roll", "Type",
   "Registered At"]

/-- The repeating `Mem i Name/Roll/Phone` headers for `i = 1..n`. -/
def memberHeaders (n : Nat) : List String :=
  (List.range n).flatMap fun i =>
    ["Mem " ++ toString (i + 1) ++ " Name",
     "Mem " ++ toString (i + 1) ++ " Roll",
     "Mem " ++ toString (i + 1) ++ " Phone"]

/-- The full worksheet column header list. -/
def columnsFor (n : Nat) : List String := fixedHeaders ++ memberHeaders n

/-- The captain-roll cell: the raw roll for `INTERNAL`, the literal
`"EXTERNAL"` otherwise. -/
def capRollCell (reg : Registration) : String :=
  if reg.participantType = "INTERNAL" then reg.capRoll else "EXTERNAL"

/-- The six fixed cells of a registration's row. -/
def fixedRow (reg : Registration) : List String :=
  [reg.teamName, reg.capName, reg.capPhone, capRollCell reg,
   reg.participantType, toString reg.createdAt]

/-- The member cells for slot `i` (0-based): the row object receives the
`m(i+1)Name/Roll/Phone` keys only when member `i` exists, each defaulted
with `|| '-'`; otherwise the keys stay unset. -/
def memCell (reg : Registration) (i : Nat) : Option (String × String × String) :=
  (reg.teamMembers.get? i).map fun m =>
    (orDash m.memName, orDash m.memRoll, orDash m.memPhone)

/-- Render one member slot as its three cells; an unset slot yields three
blank (absent) cells. -/
def cellTriple : Option (String × String × String) → List (Option String)
  | some (a, b, c) => [some a, some b, some c]
  | none => [none, none, none]

/-- The member segment of a row, one triple of cells per slot `0..maxT-1`. -/
def memCells (reg : Registration) (maxT : Nat) : List (Option String) :=
  (List.range maxT).flatMap fun i => cellTriple (memCell reg i)

/-- A registration's full row under the worksheet's columns: cell `j` holds
the value the row object supplies for column `j`, `none` when the key is
unset (a blank cell). -/
def rowFor (reg : Registration) (maxT : Nat) : List (Option String) :=
  (fixedRow reg).map some ++ memCells reg maxT

/-- The generated export: the column headers and one row per registration,
in list order. -/
abbrev Table := List String × List (List (Option String))

/-- Build the worksheet from the registration list. -/
def buildTable (regs : List Registration) : Table :=
  (columnsFor (maxTeamMembers regs),
   regs.map fun reg => rowFor reg (maxTeamMembers regs))

/-! ## Environment, request, stores -/

/-- The process environment: a lookup from variable name to its (string)
value; an absent variable is `none`. -/
structure Env where
  vars : String → Option String

/-- The request body fields the handler destructures. -/
structure Request where
  eventName : String
  coordsValue : String
  coordinatorName : String
  passkey : String
deriving DecidableEq

/-- `masterKey && passkey === masterKey`: admin exactly when
`PASSKEY_MASTER` is set to a truthy (non-empty) value equal to the supplied
passkey. -/
def isAdmin (env : Env) (passkey : String) : Bool :=
  match env.vars "PASSKEY_MASTER" with
  | none => false
  | some m => (m != "") && (passkey == m)

/-- `coordsValue.toUpperCase()`. -/
def upperStr (s : String) : String := String.mk (s.data.map Char.toUpper)

/-- The per-event check: `process.env[PASSKEY_<coordsValue.toUpperCase()>]`
must be truthy and strictly equal to the supplied passkey. -/
def eventKeyOk (env : Env) (coordsValue passkey : String) : Bool :=
  match env.vars ("PASSKEY_" ++ upperStr coordsValue) with
  | none => false
  | some k => (k != "") && (k == passkey)

/-- The shared persistent state: the registration store (all registrations
for an event, in store order) and the per-event lock record. -/
structure Store where
  registrations : String → List Registration
  lock : String → Option LockRecord

/-- Write the lock record for one event, leaving every other event's record
unchanged. -/
def setLock (st : Store) (ev : String) (r : LockRecord) : Store :=
  { st with lock := fun e => if e = ev then some r else st.lock e }

/-- One store operation performed by the handler, in order. -/
inductive StoreOp where
  | readRegs (ev : String)
  | readLock (ev : String)
  | createLock (ev : String)
  | condUpdateLock (ev : String)
deriving DecidableEq

/-- Step 2 of the handler: `findOne`, then `create` when the record is
absent (the duplicate-creation race resolves to the same record in this
sequential model). -/
def ensureLock (st : Store) (ev : String) : Store × List StoreOp :=
  match st.lock ev with
  | some _ => (st, [StoreOp.readLock ev])
  | none => (setLock st ev defaultLock, [StoreOp.readLock ev, StoreOp.createLock ev])

/-! ## Responses and messages -/

/-- The JSON responses the handler can return: the 401 `Invalid Passkey`
error, the 200 `success:false` informational shape, and the 200
`success:true` shape carrying the message, the export and the nullable
vcf text. -/
inductive Response where
  | unauthorized : Response
  | info : Bool → String → Response
  | ok : String → Table → Option String → Response
deriving DecidableEq

/-- The HTTP status attached to each response shape. -/
def Response.status : Response → Nat
  | .unauthorized => 401
  | .info _ _ => 200
  | .ok _ _ _ => 200

/-- The coordinator success message. -/
def firstMessage : String :=
  "You are the first coordinator, You can download both Contacts and the Excel Sheet"

/-- The late-coordinator message, naming the original claimant and time. -/
def lateMessage (r : LockRecord) : String :=
  "âš  Alert : Contacts were ALREADY downloaded by *" ++
    r.firstDownloaderName.getD "null" ++ "*, At " ++
    toString (r.downloadTime.getD 0) ++ "."

/-- The admin status message: names the claimant and time when the lock is
claimed, otherwise reports it unclaimed. -/
def adminMessage (r : LockRecord) : String :=
  if r.vCardsDownloaded then
    "ADMIN MODE: Retrieved all data. (Note: Originally downloaded by " ++
      r.firstDownloaderName.getD "null" ++ " at " ++
      toString (r.downloadTime.getD 0) ++ ")"
  else
    "ADMIN MODE: Retrieved all data. (Status: Not yet downloaded by any coordinator)"

/-! ## The request handler -/

/-- The result of one request: the response, the store afterwards, and the
store operations performed, in order. -/
structure HResult where
  resp : Response
  store : Store
  ops : List StoreOp

/-- `handleDownload`, translated step for step from the source:
authorization, registration fetch, empty-result early return, lock-record
ensure, the admin ghost path or the coordinator conditional claim
(`findOneAndUpdate` on `vCardsDownloaded: false`, atomic in this
per-request-step model), export generation, and response assembly. `now` is
the timestamp `new Date()` records on a successful claim. -/
def handleDownload (env : Env) (st : Store) (req : Request) (now : Nat) : HResult :=
  let admin := isAdmin env req.passkey
  if !admin && !eventKeyOk env req.coordsValue req.passkey then
    ⟨Response.unauthorized, st, []⟩
  else
    let regs := st.registrations req.eventName
    if regs = [] then
      ⟨Response.info false "No one registered yet!", st, [StoreOp.readRegs req.eventName]⟩
    else
      let ens := ensureLock st req.eventName
      let st1 := ens.1
      if admin then
        let logDetails := (st1.lock req.eventName).getD defaultLock
        ⟨Response.ok (adminMessage logDetails) (buildTable regs)
            (some (vCardContent req.eventName regs)),
         st1,
         StoreOp.readRegs req.eventName :: ens.2 ++ [StoreOp.readLock req.eventName]⟩
      else
        match st1.lock req.eventName with
        | some r =>
          if r.vCardsDownloaded then
            ⟨Response.ok (lateMessage r) (buildTable regs) none,
             st1,
             StoreOp.readRegs req.eventName :: ens.2 ++
               [StoreOp.condUpdateLock req.eventName, StoreOp.readLock req.eventName]⟩
          else
            ⟨Response.ok firstMessage (buildTable regs)
                (some (vCardContent req.eventName regs)),
             setLock st1 req.eventName ⟨true, some req.coordinatorName, some now⟩,
             StoreOp.readRegs req.eventName :: ens.2 ++
               [StoreOp.condUpdateLock req.eventName]⟩
        | none =>
          ⟨Response.ok (lateMessage defaultLock) (buildTable regs) none,
           st1,
           StoreOp.readRegs req.eventName :: ens.2 ++
             [StoreOp.condUpdateLock req.eventName, StoreOp.readLock req.eventName]⟩

/-! ## Multi-request runs (the lock step relation) -/

/-- Whether the lock record for `ev` is claimed (`vCardsDownloaded`); an
absent record counts as unclaimed. -/
def claimedAt (st : Store) (ev : String) : Bool :=
  match st.lock ev with
  | some r => r.vCardsDownloaded
  | none => false

/-- The vcf field of a response (`none` for non-`ok` shapes). -/
def respVcf : Response → Option String
  | Response.ok _ _ v => v
  | _ => none

/-- A request/response pair in which a non-admin caller received contact
cards, i.e. observed the successful claim transition. -/
def isWinnerPair (env : Env) (p : Request × Response) : Bool :=
  !isAdmin env p.1.passkey && (respVcf p.2).isSome

/-- Process a list of timestamped requests sequentially against the shared
store (each request's conditional update is one atomic step), collecting
each request with its response. -/
def runHandler (env : Env) : Store → List (Request × Nat) → List (Request × Response) × Store
  | st, [] => ([], st)
  | st, (req, t) :: rest =>
    let res := handleDownload env st req t
    let tail := runHandler env res.store rest
    ((req, res.resp) :: tail.1, tail.2)

/-- How many requests of a run were non-admin observers of a successful
claim transition on event `ev`. -/
def winners (env : Env) (ev : String) : List (Request × Response) → Nat
  | [] => 0
  | p :: l =>
    (if p.1.eventName == ev && isWinnerPair env p then 1 else 0) + winners env ev l

/-! ## Concrete sample data -/

/-- A team member with a non-empty phone. -/
def hackMember : TeamMember := ⟨"Bob Mem", "201", "9876543210"⟩

/-- The spec's running example: an `INTERNAL` registration for event
"Hackathon" with captain roll "101" and one team member. -/
def hackReg : Registration :=
  ⟨"Hackathon", "Team Rocket", "Alice", "9123456789", "101", "INTERNAL", 5,
   [hackMember]⟩

/-- An `EXTERNAL` registration whose captain phone carries non-digit
characters. -/
def extReg : Registration :=
  ⟨"Sports", "Outsiders", "Dana", "+91-98765 43210", "", "EXTERNAL", 7, []⟩

/-- A registration with no team members at all. -/
def regNoMem : Registration :=
  ⟨"Hackathon", "Solo", "Carol", "9000000000", "102", "INTERNAL", 3, []⟩

/-- A registration whose first member has a blank phone but whose second
member has a real one. -/
def regBadPhone : Registration :=
  ⟨"Hackathon", "Mixed", "Evan", "9111111111", "103", "INTERNAL", 4,
   [⟨"A", "301", ""⟩, ⟨"B", "302", "9876543210"⟩]⟩

/-- An environment with only the per-event secret `PASSKEY_HACK`. -/
def demoEnv : Env :=
  ⟨fun k => if k = "PASSKEY_HACK" then some "sekrit" else none⟩

/-- An environment with both a master secret and the per-event secret. -/
def adminEnv : Env :=
  ⟨fun k =>
    if k = "PASSKEY_MASTER" then some "m4ster"
    else if k = "PASSKEY_HACK" then some "sekrit" else none⟩

/-- A store holding one registration for "Hackathon" and no lock records. -/
def demoStore : Store :=
  ⟨fun ev => if ev = "Hackathon" then [hackReg] else [], fun _ => none⟩

/-- A store with no registrations at all and no lock records. -/
def demoEmptyStore : Store := ⟨fun _ => [], fun _ => none⟩

/-- An already-claimed lock record. -/
def claimedRec : LockRecord := ⟨true, some "CoordA", some 10⟩

/-- A store whose "Hackathon" lock is already claimed. -/
def demoStoreClaimed : Store :=
  ⟨fun ev => if ev = "Hackathon" then [hackReg] else [],
   fun ev => if ev = "Hackathon" then some claimedRec else none⟩

/-- Coordinator A's request with the correct per-event passkey. -/
def demoReqA : Request := ⟨"Hackathon", "hack", "CoordA", "sekrit"⟩

/-- Coordinator B's request with the correct per-event passkey. -/
def demoReqB : Request := ⟨"Hackathon", "hack", "CoordB", "sekrit"⟩

/-- An admin request using the master secret. -/
def demoAdminReq : Request := ⟨"Hackathon", "hack", "Boss", "m4ster"⟩

/-- A request with a wrong passkey. -/
def badReq : Request := ⟨"Hackathon", "hack", "Mallory", "wrong"⟩

/-! ## C10: the vCard template ignores the name argument -/

/-- Claim C10: `generateVCard` uses the filename for both its FN and N name
fields and the phone for its TEL field; the `name` argument has no effect
on the output, so the actual captain/member name never enters the emitted
card text. -/
theorem C10_vcard_ignores_name :
    ∀ name name2 phone filename : String,
      generateVCard name phone filename = generateVCard name2 phone filename ∧
      generateVCard name phone filename =
        "BEGIN:VCARD\nVERSION:3.0\nFN:" ++ filename ++ "\nN:;" ++ filename ++
          ";;;\nTEL;TYPE=CELL:" ++ phone ++ "\nEND:VCARD\n" :=
  fun _ _ _ _ => ⟨rfl, rfl⟩

/-! ## C9: the card identifier -/

/-- Claim C9: the per-registration identifier is the lowercased 2-character
event prefix followed by the captain's roll for `INTERNAL` registrations
and by `"EXT"` plus the last 8 digits of the captain's phone otherwise; the
"Hackathon" example yields cards `ha101-1` and `ha101-2`. -/
theorem C9_card_identifier :
    (∀ (ev : String) (reg : Registration), reg.participantType = "INTERNAL" →
        uniqueId ev reg = lowerPrefix2 ev ++ reg.capRoll) ∧
    (∀ (ev : String) (reg : Registration), reg.participantType ≠ "INTERNAL" →
        uniqueId ev reg =
          lowerPrefix2 ev ++ "EXT" ++ lastNChars 8 (digitsOnly reg.capPhone)) ∧
    uniqueId "Hackathon" hackReg = "ha101" ∧
    vCardForReg "Hackathon" hackReg =
      generateVCard "Alice" "9123456789" "ha101-1" ++
        generateVCard "Bob Mem" "9876543210" "ha101-2" := by
  refine ⟨?_, ?_, by decide, by decide⟩
  · intro ev reg h
    simp [uniqueId, h]
  · intro ev reg h
    simp [uniqueId, h]

/-- Witness for C9 at concrete registrations. -/
theorem C9_card_identifier_witness :
    uniqueId "Hackathon" hackReg = lowerPrefix2 "Hackathon" ++ hackReg.capRoll ∧
    uniqueId "Sports" extReg =
      lowerPrefix2 "Sports" ++ "EXT" ++ lastNChars 8 (digitsOnly extReg.capPhone) :=
  ⟨C9_card_identifier.1 "Hackathon" hackReg rfl,
   C9_card_identifier.2.1 "Sports" extReg (by decide)⟩

/-! ## C8: when the second card is emitted -/

/-- Counterexample to C8 as stated: `regBadPhone` has a team member with a
non-empty phone (its second member), yet only the captain card is emitted,
because the code inspects only `teamMembers[0]`. -/
theorem C8_counterexample :
    (regBadPhone.teamMembers.any fun m => m.memPhone != "") = true ∧
    vCardForReg "Hackathon" regBadPhone =
      generateVCard regBadPhone.capName regBadPhone.capPhone
        (uniqueId "Hackathon" regBadPhone ++ "-1") ∧
    vCardForReg "Hackathon" regBadPhone ≠
      generateVCard regBadPhone.capName regBadPhone.capPhone
        (uniqueId "Hackathon" regBadPhone ++ "-1") ++
        generateVCard "B" "9876543210" (uniqueId "Hackathon" regBadPhone ++ "-2") := by
  refine ⟨by decide, by decide, by decide⟩

/-- Claim C8 (amended): the second contact-card record `<id>-2` is emitted
exactly when the registration's FIRST team member exists and has a
non-empty phone; otherwise only the captain card `<id>-1` is emitted. -/
theorem C8_second_card_condition :
    (∀ (ev : String) (reg : Registration) (m : TeamMember) (rest : List TeamMember),
        reg.teamMembers = m :: rest → m.memPhone ≠ "" →
        vCardForReg ev reg =
          generateVCard reg.capName reg.capPhone (uniqueId ev reg ++ "-1") ++
            generateVCard m.memName m.memPhone (uniqueId ev reg ++ "-2")) ∧
    (∀ (ev : String) (reg : Registration),
        (∀ (m : TeamMember) (rest : List TeamMember),
          reg.teamMembers = m :: rest → m.memPhone = "") →
        vCardForReg ev reg =
          generateVCard reg.capName reg.capPhone (uniqueId ev reg ++ "-1")) := by
  constructor
  · intro ev reg m rest h hm
    simp [vCardForReg, h, hm]
  · intro ev reg h
    cases hm : reg.teamMembers with
    | nil => simp [vCardForReg, hm]
    | cons m rest => simp [vCardForReg, hm, h m rest hm]

/-- Witness for C8 (amended) at concrete registrations. -/
theorem C8_second_card_condition_witness :
    vCardForReg "Hackathon" hackReg =
      generateVCard hackReg.capName hackReg.capPhone
        (uniqueId "Hackathon" hackReg ++ "-1") ++
        generateVCard hackMember.memName hackMember.memPhone
          (uniqueId "Hackathon" hackReg ++ "-2") ∧
    vCardForReg "Sports" extReg =
      generateVCard extReg.capName extReg.capPhone
        (uniqueId "Sports" extReg ++ "-1") :=
  ⟨C8_second_card_condition.1 "Hackathon" hackReg hackMember [] rfl (by decide),
   C8_second_card_condition.2 "Sports" extReg (fun m rest h => List.noConfusion h)⟩

/-! ## Export-shape lemmas -/

lemma memberHeaders_succ (n : Nat) :
    memberHeaders (n + 1) =
      memberHeaders n ++
        ["Mem " ++ toString (n + 1) ++ " Name",
         "Mem " ++ toString (n + 1) ++ " Roll",
         "Mem " ++ toString (n + 1) ++ " Phone"] := by
  unfold memberHeaders
  rw [List.range_succ, List.flatMap_append]
  simp

lemma memberHeaders_length (n : Nat) : (memberHeaders n).length = 3 * n := by
  induction n with
  | zero => rfl
  | succ n ih =>
    rw [memberHeaders_succ, List.length_append, ih]
    show 3 * n + 3 = 3 * (n + 1)
    omega

lemma foldl_max_init_le (l : List Registration) :
    ∀ a : Nat, a ≤ l.foldl (fun acc reg => max acc reg.teamMembers.length) a := by
  induction l with
  | nil => intro a; simp
  | cons x xs ih =>
    intro a
    simp only [List.foldl_cons]
    exact le_trans (le_max_left _ _) (ih _)

lemma mem_le_foldl_max (l : List Registration) :
    ∀ (a : Nat) (reg : Registration), reg ∈ l →
      reg.teamMembers.length ≤ l.foldl (fun acc r => max acc r.teamMembers.length) a := by
  induction l with
  | nil => intro a reg h; cases h
  | cons x xs ih =>
    intro a reg h
    simp only [List.foldl_cons]
    rcases List.mem_cons.mp h with h | h
    · subst h
      exact le_trans (le_max_right _ _) (foldl_max_init_le xs _)
    · exact ih _ reg h

lemma foldl_max_attained (l : List Registration) :
    ∀ a : Nat,
      l.foldl (fun acc r => max acc r.teamMembers.length) a = a ∨
      ∃ reg ∈ l,
        l.foldl (fun acc r => max acc r.teamMembers.length) a =
          reg.teamMembers.length := by
  induction l with
  | nil => intro a; left; rfl
  | cons x xs ih =>
    intro a
    simp only [List.foldl_cons]
    rcases ih (max a x.teamMembers.length) with h | ⟨reg, hm, he⟩
    · rcases max_choice a x.teamMembers.length with h2 | h2
      · left; rw [h, h2]
      · right
        exact ⟨x, List.mem_cons_self x xs, by rw [h, h2]⟩
    · right
      exact ⟨reg, List.mem_cons_of_mem _ hm, he⟩

lemma cellTriple_length (o : Option (String × String × String)) :
    (cellTriple o).length = 3 := by
  rcases o with _ | ⟨a, b, c⟩ <;> rfl

lemma flatMap_range_length (f : Nat → List (Option String))
    (h3 : ∀ k, (f k).length = 3) :
    ∀ n, ((List.range n).flatMap f).length = 3 * n := by
  intro n
  induction n with
  | zero => rfl
  | succ n ih =>
    rw [List.range_succ, List.flatMap_append, List.length_append, ih]
    simp [h3]
    omega

lemma flatMap_range_get? (f : Nat → List (Option String))
    (h3 : ∀ k, (f k).length = 3) :
    ∀ (n i j : Nat), i < n → j < 3 →
      ((List.range n).flatMap f).get? (3 * i + j) = (f i).get? j := by
  intro n
  induction n with
  | zero => intro i j hi hj; omega
  | succ n ih =>
    intro i j hi hj
    rw [List.range_succ, List.flatMap_append]
    by_cases hin : i < n
    · rw [List.get?_append (by rw [flatMap_range_length f h3 n]; omega)]
      exact ih i j hin hj
    · have hieq : i = n := by omega
      subst hieq
      rw [List.get?_append_right (by rw [flatMap_range_length f h3 i]; omega)]
      rw [flatMap_range_length f h3 i]
      have harith : 3 * i + j - 3 * i = j := by omega
      rw [harith]
      simp

lemma memCells_get? (reg : Registration) (maxT i j : Nat)
    (hi : i < maxT) (hj : j < 3) :
    (memCells reg maxT).get? (3 * i + j) = (cellTriple (memCell reg i)).get? j := by
  unfold memCells
  exact flatMap_range_get? _ (fun k => cellTriple_length _) maxT i j hi hj

lemma rowFor_get?_member (reg : Registration) (maxT i j : Nat)
    (hi : i < maxT) (hj : j < 3) :
    (rowFor reg maxT).get? (6 + (3 * i + j)) = (cellTriple (memCell reg i)).get? j := by
  unfold rowFor
  have hlen : ((fixedRow reg).map some).length = 6 := rfl
  rw [List.get?_append_right (by rw [hlen]; omega), hlen]
  have harith : 6 + (3 * i + j) - 6 = 3 * i + j := by omega
  rw [harith]
  exact memCells_get? reg maxT i j hi hj

/-! ## C6: worksheet column count and the EXTERNAL marker -/

/-- Claim C6: the export has exactly `6 + 3 * maxTeamMembers` columns,
where `maxTeamMembers` bounds (and is attained by) the member counts of the
registrations in the list, and a non-`INTERNAL` registration's captain-roll
cell always renders the literal `"EXTERNAL"`. -/
theorem C6_export_columns :
    (∀ regs : List Registration,
        (buildTable regs).1.length = 6 + 3 * maxTeamMembers regs) ∧
    (∀ (regs : List Registration) (reg : Registration), reg ∈ regs →
        reg.teamMembers.length ≤ maxTeamMembers regs) ∧
    (∀ regs : List Registration, maxTeamMembers regs = 0 ∨
        ∃ reg ∈ regs, reg.teamMembers.length = maxTeamMembers regs) ∧
    (∀ (reg : Registration) (maxT : Nat), reg.participantType ≠ "INTERNAL" →
        (rowFor reg maxT).get? 3 = some (some "EXTERNAL")) := by
  refine ⟨?_, ?_, ?_, ?_⟩
  · intro regs
    show (columnsFor (maxTeamMembers regs)).length = _
    rw [columnsFor, List.length_append, memberHeaders_length]
    rfl
  · intro regs reg h
    exact mem_le_foldl_max regs 0 reg h
  · intro regs
    rcases foldl_max_attained regs 0 with h | ⟨reg, hm, he⟩
    · left; exact h
    · right; exact ⟨reg, hm, he.symm⟩
  · intro reg maxT h
    have hcell : (rowFor reg maxT).get? 3 = some (some (capRollCell reg)) := rfl
    rw [hcell, capRollCell, if_neg h]

/-- Witness for C6 at concrete registration lists. -/
theorem C6_export_columns_witness :
    (buildTable [hackReg]).1.length = 6 + 3 * maxTeamMembers [hackReg] ∧
    extReg.teamMembers.length ≤ maxTeamMembers [extReg] ∧
    (rowFor extReg 0).get? 3 = some (some "EXTERNAL") :=
  ⟨C6_export_columns.1 [hackReg],
   C6_export_columns.2.1 [extReg] extReg (by decide),
   C6_export_columns.2.2.2 extReg 0 (by decide)⟩

/-! ## C7: member slots beyond a registration's own members -/

/-- Counterexample to C7 as stated: `regNoMem` has fewer members than
`maxTeamMembers` of its list, yet its first member-slot cell is blank
(the row object never receives the key), not the `"-"` placeholder. -/
theorem C7_counterexample :
    regNoMem.teamMembers.length < maxTeamMembers [hackReg, regNoMem] ∧
    (rowFor regNoMem (maxTeamMembers [hackReg, regNoMem])).get? 6 = some none ∧
    (rowFor regNoMem (maxTeamMembers [hackReg, regNoMem])).get? 6 ≠
      some (some "-") :=
  ⟨by decide, by decide, by decide⟩

/-- Claim C7 (amended): member cells for slots beyond a registration's own
members are left unset (blank), while an existing member's cells are
rendered with the `|| '-'` defaults (so `"-"` appears exactly for an
existing member's empty field). -/
theorem C7_missing_slots_blank :
    (∀ (reg : Registration) (maxT i : Nat), i < maxT →
        reg.teamMembers.length ≤ i →
        (rowFor reg maxT).get? (6 + 3 * i) = some none ∧
        (rowFor reg maxT).get? (6 + 3 * i + 1) = some none ∧
        (rowFor reg maxT).get? (6 + 3 * i + 2) = some none) ∧
    (∀ (reg : Registration) (maxT i : Nat) (m : TeamMember), i < maxT →
        reg.teamMembers.get? i = some m →
        (rowFor reg maxT).get? (6 + 3 * i) = some (some (orDash m.memName)) ∧
        (rowFor reg maxT).get? (6 + 3 * i + 1) = some (some (orDash m.memRoll)) ∧
        (rowFor reg maxT).get? (6 + 3 * i + 2) = some (some (orDash m.memPhone))) := by
  constructor
  · intro reg maxT i hi hlen
    have hcell : memCell reg i = none := by
      unfold memCell
      rw [List.get?_eq_none.mpr hlen]
      rfl
    have h0 := rowFor_get?_member reg maxT i 0 hi (by omega)
    have h1 := rowFor_get?_member reg maxT i 1 hi (by omega)
    have h2 := rowFor_get?_member reg maxT i 2 hi (by omega)
    simp only [Nat.add_zero] at h0
    rw [← Nat.add_assoc] at h1 h2
    rw [h0, h1, h2, hcell]
    exact ⟨rfl, rfl, rfl⟩
  · intro reg maxT i m hi hm
    have hcell : memCell reg i =
        some (orDash m.memName, orDash m.memRoll, orDash m.memPhone) := by
      unfold memCell
      rw [hm]
      rfl
    have h0 := rowFor_get?_member reg maxT i 0 hi (by omega)
    have h1 := rowFor_get?_member reg maxT i 1 hi (by omega)
    have h2 := rowFor_get?_member reg maxT i 2 hi (by omega)
    simp only [Nat.add_zero] at h0
    rw [← Nat.add_assoc] at h1 h2
    rw [h0, h1, h2, hcell]
    exact ⟨rfl, rfl, rfl⟩

/-- Witness for C7 (amended) at concrete rows. -/
theorem C7_missing_slots_blank_witness :
    (rowFor regNoMem 1).get? (6 + 3 * 0) = some none ∧
    (rowFor hackReg 1).get? (6 + 3 * 0) = some (some (orDash hackMember.memName)) :=
  ⟨(C7_missing_slots_blank.1 regNoMem 1 0 (by decide) (by decide)).1,
   (C7_missing_slots_blank.2 hackReg 1 0 hackMember (by decide) (by decide)).1⟩

/-! ## Lock-store lemmas -/

lemma setLock_lock (st : Store) (ev : String) (r : LockRecord) (e : String) :
    (setLock st ev r).lock e = if e = ev then some r else st.lock e := rfl

lemma ensureLock_fst_lock (st : Store) (ev : String) :
    ((ensureLock st ev).1).lock ev = some ((st.lock ev).getD defaultLock) := by
  unfold ensureLock
  cases h : st.lock ev <;> simp [h, setLock]

lemma ensureLock_lock_of_some (st : Store) (ev ev' : String) (r : LockRecord)
    (h : st.lock ev' = some r) :
    ((ensureLock st ev).1).lock ev' = some r := by
  unfold ensureLock
  cases hm : st.lock ev
  · show (setLock st ev defaultLock).lock ev' = some r
    rw [setLock_lock]
    split
    · next heq => rw [heq] at h; rw [h] at hm; cases hm
    · exact h
  · exact h

lemma claimedAt_setLock (st : Store) (ev : String) (r : LockRecord) (e : String) :
    claimedAt (setLock st ev r) e =
      if e = ev then r.vCardsDownloaded else claimedAt st e := by
  unfold claimedAt
  rw [setLock_lock]
  by_cases h : e = ev
  · rw [if_pos h, if_pos h]
  · rw [if_neg h, if_neg h]

lemma claimedAt_ensureLock (st : Store) (ev ev' : String) :
    claimedAt ((ensureLock st ev).1) ev' = claimedAt st ev' := by
  unfold ensureLock
  cases hm : st.lock ev
  · show claimedAt (setLock st ev defaultLock) ev' = claimedAt st ev'
    rw [claimedAt_setLock]
    by_cases h : ev' = ev
    · rw [if_pos h]
      unfold claimedAt
      rw [h, hm]
      rfl
    · rw [if_neg h]
  · rfl

/-! ## C2: the admin path never mutates the lock record -/

/-- Claim C2: for an admin request, every lock record that existed before
the request is exactly the same record afterwards (all fields unchanged),
and no conditional claim update is ever attempted. -/
theorem C2_admin_never_mutates (env : Env) (st : Store) (req : Request) (now : Nat)
    (ha : isAdmin env req.passkey = true) :
    (∀ (ev : String) (r : LockRecord), st.lock ev = some r →
        ((handleDownload env st req now).store).lock ev = some r) ∧
    (∀ ev : String, StoreOp.condUpdateLock ev ∉ (handleDownload env st req now).ops) := by
  constructor
  · intro ev r h
    simp only [handleDownload, ha]
    simp only [Bool.not_true, Bool.false_and, Bool.false_eq_true, if_false]
    split
    · exact h
    · exact ensureLock_lock_of_some st req.eventName ev r h
  · intro ev
    simp only [handleDownload, ha]
    simp only [Bool.not_true, Bool.false_and, Bool.false_eq_true, if_false]
    split
    · simp
    · unfold ensureLock
      cases hm : st.lock req.eventName <;> simp

/-- Witness for C2: an admin request against an already-claimed lock. -/
theorem C2_admin_never_mutates_witness :
    ((handleDownload adminEnv demoStoreClaimed demoAdminReq 99).store).lock "Hackathon" =
      some claimedRec ∧
    StoreOp.condUpdateLock "Hackathon" ∉
      (handleDownload adminEnv demoStoreClaimed demoAdminReq 99).ops :=
  ⟨(C2_admin_never_mutates adminEnv demoStoreClaimed demoAdminReq 99 (by decide)).1
      "Hackathon" claimedRec rfl,
   (C2_admin_never_mutates adminEnv demoStoreClaimed demoAdminReq 99 (by decide)).2
      "Hackathon"⟩

/-! ## C4: authorization -/

/-- Claim C4: the caller is admin exactly when a truthy master secret is
configured and equals the supplied passkey; a non-admin caller whose
passkey does not strictly match a truthy secret configured under
`PASSKEY_` plus the uppercased event identifier receives the 401
unauthorized response, with the store untouched and no store operation
performed. -/
theorem C4_authorization (env : Env) (st : Store) (req : Request) (now : Nat) :
    (isAdmin env req.passkey = true ↔
      ∃ m, env.vars "PASSKEY_MASTER" = some m ∧ m ≠ "" ∧ req.passkey = m) ∧
    (eventKeyOk env req.coordsValue req.passkey = true ↔
      ∃ k, env.vars ("PASSKEY_" ++ upperStr req.coordsValue) = some k ∧
        k ≠ "" ∧ k = req.passkey) ∧
    (isAdmin env req.passkey = false →
      eventKeyOk env req.coordsValue req.passkey = false →
      (handleDownload env st req now).resp = Response.unauthorized ∧
      ((handleDownload env st req now).resp).status = 401 ∧
      (handleDownload env st req now).store = st ∧
      (handleDownload env st req now).ops = []) := by
  refine ⟨?_, ?_, ?_⟩
  · unfold isAdmin
    cases h : env.vars "PASSKEY_MASTER" <;> simp [h]
  · unfold eventKeyOk
    cases h : env.vars ("PASSKEY_" ++ upperStr req.coordsValue) with
    | none => simp [h]
    | some k =>
      simp only [h]
      show (k != "" && (k == req.passkey)) = true ↔ _
      constructor
      · intro hk
        have hk1 := (Bool.and_eq_true _ _).mp hk
        exact ⟨k, rfl, by simpa using hk1.1, by simpa using hk1.2⟩
      · rintro ⟨k2, hk2, hne, hpk⟩
        cases hk2
        simp [hpk ▸ hne, hpk]
  · intro hA hE
    simp only [handleDownload, hA, hE]
    exact ⟨rfl, rfl, rfl, rfl⟩

/-- Witness for C4: a wrong passkey is rejected with nothing touched. -/
theorem C4_authorization_witness :
    (handleDownload demoEnv demoStore badReq 0).resp = Response.unauthorized ∧
    ((handleDownload demoEnv demoStore badReq 0).resp).status = 401 ∧
    (handleDownload demoEnv demoStore badReq 0).store = demoStore ∧
    (handleDownload demoEnv demoStore badReq 0).ops = [] :=
  (C4_authorization demoEnv demoStore badReq 0).2.2 (by decide) (by decide)

/-! ## C5: empty registration list -/

/-- Claim C5: an authorized request for an event with no registrations gets
the `success:false` "No one registered yet!" response with status 200, and
the store is completely untouched (in particular no lock record is created
or mutated); only the registration read is performed. -/
theorem C5_no_registrations (env : Env) (st : Store) (req : Request) (now : Nat)
    (hauth : isAdmin env req.passkey = true ∨
      eventKeyOk env req.coordsValue req.passkey = true)
    (hempty : st.registrations req.eventName = []) :
    (handleDownload env st req now).resp = Response.info false "No one registered yet!" ∧
    ((handleDownload env st req now).resp).status = 200 ∧
    (handleDownload env st req now).store = st ∧
    (handleDownload env st req now).ops = [StoreOp.readRegs req.eventName] := by
  rcases hauth with h | h <;>
    simp only [handleDownload, h, hempty] <;>
    simp [Response.status]

/-- Witness for C5: an authorized coordinator request on an event with no
registrations. -/
theorem C5_no_registrations_witness :
    (handleDownload demoEnv demoEmptyStore demoReqA 0).resp =
      Response.info false "No one registered yet!" ∧
    ((handleDownload demoEnv demoEmptyStore demoReqA 0).resp).status = 200 ∧
    (handleDownload demoEnv demoEmptyStore demoReqA 0).store = demoEmptyStore ∧
    (handleDownload demoEnv demoEmptyStore demoReqA 0).ops =
      [StoreOp.readRegs demoReqA.eventName] :=
  C5_no_registrations demoEnv demoEmptyStore demoReqA 0 (Or.inr (by decide)) rfl

lemma claimedAt_getD (st : Store) (ev : String) :
    claimedAt st ev = ((st.lock ev).getD defaultLock).vCardsDownloaded := by
  unfold claimedAt
  cases h : st.lock ev <;> simp [h, defaultLock]

/-! ## C3: the vcf field is non-null exactly for full access -/

/-- Claim C3: an authorized request on an event with registrations always
gets the `success:true` response carrying the full export table; its vcf
field is non-null exactly when the caller is admin or the non-admin caller
observed the lock still unclaimed (i.e. won the claim transition), and a
late coordinator gets `vcf = null` together with the same full export. -/
theorem C3_vcf_iff_full_access (env : Env) (st : Store) (req : Request) (now : Nat)
    (hauth : isAdmin env req.passkey = true ∨
      eventKeyOk env req.coordsValue req.passkey = true)
    (hne : st.registrations req.eventName ≠ []) :
    ∃ m : String,
      (handleDownload env st req now).resp =
        Response.ok m (buildTable (st.registrations req.eventName))
          (if isAdmin env req.passkey || !claimedAt st req.eventName then
            some (vCardContent req.eventName (st.registrations req.eventName))
          else none) := by
  cases ha : isAdmin env req.passkey with
  | true =>
    simp only [handleDownload, ha, Bool.not_true, Bool.false_and, Bool.false_eq_true,
      if_false, if_neg hne, if_true, Bool.true_or]
    exact ⟨_, rfl⟩
  | false =>
    have hok : eventKeyOk env req.coordsValue req.passkey = true := by
      rcases hauth with h | h
      · rw [ha] at h; cases h
      · exact h
    have hlock := ensureLock_fst_lock st req.eventName
    have hcl := claimedAt_getD st req.eventName
    simp only [handleDownload, ha, hok, Bool.not_false, Bool.not_true, Bool.true_and,
      Bool.and_false, Bool.false_eq_true, if_false, if_neg hne, Bool.false_or]
    rw [hlock]
    cases hv : ((st.lock req.eventName).getD defaultLock).vCardsDownloaded with
    | true =>
      simp only [hv, if_true]
      rw [hcl, hv]
      exact ⟨_, rfl⟩
    | false =>
      simp only [hv, Bool.false_eq_true, if_false]
      rw [hcl, hv]
      exact ⟨_, rfl⟩

/-- Witness for C3: a late coordinator against an already-claimed lock
receives a `success:true` response with the export and a null vcf. -/
theorem C3_vcf_iff_full_access_witness :
    ∃ m : String,
      (handleDownload demoEnv demoStoreClaimed demoReqB 20).resp =
        Response.ok m (buildTable (demoStoreClaimed.registrations demoReqB.eventName))
          (if isAdmin demoEnv demoReqB.passkey ||
              !claimedAt demoStoreClaimed demoReqB.eventName then
            some (vCardContent demoReqB.eventName
              (demoStoreClaimed.registrations demoReqB.eventName))
          else none) :=
  C3_vcf_iff_full_access demoEnv demoStoreClaimed demoReqB 20
    (Or.inr (by decide)) (by decide)

/-! ## Per-request case analysis of the handler -/

/-- Complete case analysis of one `handleDownload` call: the request is
rejected, finds no registrations, is served on the admin ghost path, loses
the claim race, or wins the claim transition. -/
lemma handle_cases (env : Env) (st : Store) (req : Request) (t : Nat) :
    ((handleDownload env st req t).resp = Response.unauthorized ∧
      (handleDownload env st req t).store = st) ∨
    ((handleDownload env st req t).resp = Response.info false "No one registered yet!" ∧
      (handleDownload env st req t).store = st) ∨
    (isAdmin env req.passkey = true ∧
      (handleDownload env st req t).store = (ensureLock st req.eventName).1 ∧
      ∃ m : String, (handleDownload env st req t).resp =
        Response.ok m (buildTable (st.registrations req.eventName))
          (some (vCardContent req.eventName (st.registrations req.eventName)))) ∨
    (isAdmin env req.passkey = false ∧ claimedAt st req.eventName = true ∧
      (handleDownload env st req t).store = (ensureLock st req.eventName).1 ∧
      ∃ r : LockRecord, r.vCardsDownloaded = true ∧
        (handleDownload env st req t).resp =
          Response.ok (lateMessage r) (buildTable (st.registrations req.eventName)) none) ∨
    (isAdmin env req.passkey = false ∧ claimedAt st req.eventName = false ∧
      (handleDownload env st req t).store =
        setLock (ensureLock st req.eventName).1 req.eventName
          ⟨true, some req.coordinatorName, some t⟩ ∧
      (handleDownload env st req t).resp =
        Response.ok firstMessage (buildTable (st.registrations req.eventName))
          (some (vCardContent req.eventName (st.registrations req.eventName)))) := by
  by_cases hauthc :
      (!isAdmin env req.passkey && !eventKeyOk env req.coordsValue req.passkey) = true
  · left
    unfold handleDownload
    simp only [hauthc, if_true]
    exact ⟨trivial, trivial⟩
  · by_cases hregs : st.registrations req.eventName = []
    · right; left
      unfold handleDownload
      simp only [if_neg hauthc, if_pos hregs]
      exact ⟨trivial, trivial⟩
    · cases ha : isAdmin env req.passkey with
      | true =>
        right; right; left
        refine ⟨rfl, ?_, ?_⟩
        · unfold handleDownload
          simp only [ha, Bool.not_true, Bool.false_and, Bool.false_eq_true, if_false,
            if_neg hregs, if_true]
        · unfold handleDownload
          simp only [ha, Bool.not_true, Bool.false_and, Bool.false_eq_true, if_false,
            if_neg hregs, if_true]
          exact ⟨_, by rfl⟩
      | false =>
        have hok : eventKeyOk env req.coordsValue req.passkey = true := by
          cases hek : eventKeyOk env req.coordsValue req.passkey
          · exact absurd (by rw [ha, hek]; rfl) hauthc
          · rfl
        have hget := ensureLock_fst_lock st req.eventName
        cases hscr : ((ensureLock st req.eventName).1).lock req.eventName with
        | none =>
          rw [hget] at hscr
          cases hscr
        | some r =>
          have hr : r = (st.lock req.eventName).getD defaultLock := by
            rw [hget] at hscr
            exact (Option.some.inj hscr).symm
          have hclaim : claimedAt st req.eventName = r.vCardsDownloaded := by
            rw [claimedAt_getD, hr]
          cases hv : r.vCardsDownloaded with
          | true =>
            right; right; right; left
            refine ⟨rfl, by rw [hclaim, hv], ?_, r, hv, ?_⟩
            · unfold handleDownload
              simp only [ha, hok, Bool.not_false, Bool.not_true, Bool.true_and,
                Bool.and_false, Bool.false_eq_true, if_false, if_neg hregs, hscr, hv,
                if_true]
            · unfold handleDownload
              simp only [ha, hok, Bool.not_false, Bool.not_true, Bool.true_and,
                Bool.and_false, Bool.false_eq_true, if_false, if_neg hregs, hscr, hv,
                if_true]
          | false =>
            right; right; right; right
            refine ⟨rfl, by rw [hclaim, hv], ?_, ?_⟩
            · unfold handleDownload
              simp only [ha, hok, Bool.not_false, Bool.not_true, Bool.true_and,
                Bool.and_false, Bool.false_eq_true, if_false, if_neg hregs, hscr, hv]
            · unfold handleDownload
              simp only [ha, hok, Bool.not_false, Bool.not_true, Bool.true_and,
                Bool.and_false, Bool.false_eq_true, if_false, if_neg hregs, hscr, hv]

/-- Claimed-ness of any event's lock only ever goes up across a request. -/
lemma claimedAt_handle_mono (env : Env) (st : Store) (req : Request) (t : Nat)
    (ev : String) (h : claimedAt st ev = true) :
    claimedAt (handleDownload env st req t).store ev = true := by
  rcases handle_cases env st req t with
    ⟨_, hs⟩ | ⟨_, hs⟩ | ⟨_, hs, _⟩ | ⟨_, _, hs, _⟩ | ⟨_, _, hs, _⟩
  · rw [hs]; exact h
  · rw [hs]; exact h
  · rw [hs, claimedAt_ensureLock]; exact h
  · rw [hs, claimedAt_ensureLock]; exact h
  · rw [hs, claimedAt_setLock]
    by_cases he : ev = req.eventName
    · rw [if_pos he]
    · rw [if_neg he, claimedAt_ensureLock]; exact h

/-- A request against an already-claimed lock never observes the winning
transition. -/
lemma not_winner_of_claimed (env : Env) (st : Store) (req : Request) (t : Nat)
    (h : claimedAt st req.eventName = true) :
    isWinnerPair env (req, (handleDownload env st req t).resp) = false := by
  unfold isWinnerPair
  rcases handle_cases env st req t with
    ⟨hr, _⟩ | ⟨hr, _⟩ | ⟨ha, _, m, hr⟩ | ⟨ha, _, _, r, hv, hr⟩ | ⟨_, hcl, _, _⟩
  · simp [hr, respVcf]
  · simp [hr, respVcf]
  · simp [ha]
  · simp [hr, respVcf]
  · rw [h] at hcl; cases hcl

/-- A winning request leaves its event's lock claimed. -/
lemma winner_claims (env : Env) (st : Store) (req : Request) (t : Nat)
    (h : isWinnerPair env (req, (handleDownload env st req t).resp) = true) :
    claimedAt (handleDownload env st req t).store req.eventName = true := by
  unfold isWinnerPair at h
  rcases handle_cases env st req t with
    ⟨hr, _⟩ | ⟨hr, _⟩ | ⟨ha, _, m, hr⟩ | ⟨ha, _, _, r, hv, hr⟩ | ⟨_, _, hs, _⟩
  · rw [hr] at h; simp [respVcf] at h
  · rw [hr] at h; simp [respVcf] at h
  · rw [ha] at h; simp at h
  · rw [hr] at h; simp [respVcf] at h
  · rw [hs, claimedAt_setLock, if_pos rfl]

/-- A non-admin success response with a null vcf carries the late message
of a claimed record. -/
lemma handle_resp_late (env : Env) (st : Store) (req : Request) (t : Nat)
    (hadmin : isAdmin env req.passkey = false) (m : String) (e : Table)
    (h : (handleDownload env st req t).resp = Response.ok m e none) :
    ∃ r : LockRecord, r.vCardsDownloaded = true ∧ m = lateMessage r := by
  rcases handle_cases env st req t with
    ⟨hr, _⟩ | ⟨hr, _⟩ | ⟨ha, _, m2, hr⟩ | ⟨_, _, _, r, hv, hr⟩ | ⟨_, _, _, hr⟩
  · rw [hr] at h; cases h
  · rw [hr] at h; cases h
  · rw [ha] at hadmin; cases hadmin
  · rw [hr] at h
    simp only [Response.ok.injEq] at h
    exact ⟨r, hv, h.1.symm⟩
  · rw [hr] at h
    simp only [Response.ok.injEq] at h
    cases h.2.2

/-- Once an event's lock is claimed, no later request in a run wins it. -/
lemma winners_zero_of_claimed (env : Env) (ev : String) :
    ∀ (reqs : List (Request × Nat)) (st : Store), claimedAt st ev = true →
      winners env ev (runHandler env st reqs).1 = 0 := by
  intro reqs
  induction reqs with
  | nil => intro st _; rfl
  | cons q rest ih =>
    intro st h
    obtain ⟨req, t⟩ := q
    simp only [runHandler, winners]
    split
    · next hc =>
      exfalso
      have hc2 := (Bool.and_eq_true _ _).mp hc
      have hev : req.eventName = ev := by simpa using hc2.1
      have hnw := not_winner_of_claimed env st req t (by rw [hev]; exact h)
      rw [hnw] at hc2
      cases hc2.2
    · next hc =>
      rw [Nat.zero_add]
      exact ih _ (claimedAt_handle_mono env st req t ev h)

/-- At most one request of any run wins the claim on a given event. -/
lemma run_winners_le_one (env : Env) (ev : String) :
    ∀ (reqs : List (Request × Nat)) (st : Store),
      winners env ev (runHandler env st reqs).1 ≤ 1 := by
  intro reqs
  induction reqs with
  | nil => intro st; exact Nat.zero_le 1
  | cons q rest ih =>
    intro st
    obtain ⟨req, t⟩ := q
    simp only [runHandler, winners]
    split
    · next hc =>
      have hc2 := (Bool.and_eq_true _ _).mp hc
      have hev : req.eventName = ev := by simpa using hc2.1
      have hcl := winner_claims env st req t hc2.2
      have h0 := winners_zero_of_claimed env ev rest
        (handleDownload env st req t).store (by rw [← hev]; exact hcl)
      omega
    · next hc =>
      have := ih (handleDownload env st req t).store
      omega

/-- Every non-admin null-vcf success response in a run reports the late
message of a claimed record. -/
lemma run_late_observed (env : Env) :
    ∀ (reqs : List (Request × Nat)) (st : Store) (p : Request × Response),
      p ∈ (runHandler env st reqs).1 →
      isAdmin env p.1.passkey = false →
      ∀ (m : String) (e : Table), p.2 = Response.ok m e none →
        ∃ r : LockRecord, r.vCardsDownloaded = true ∧ m = lateMessage r := by
  intro reqs
  induction reqs with
  | nil =>
    intro st p hp
    simp [runHandler] at hp
  | cons q rest ih =>
    intro st p hp hadm m e hresp
    obtain ⟨req, t⟩ := q
    simp only [runHandler, List.mem_cons] at hp
    rcases hp with hp | hp
    · subst hp
      exact handle_resp_late env st req t hadm m e hresp
    · exact ih _ p hp hadm m e hresp

/-! ## C1: at most one non-admin winner per event -/

/-- Claim C1: modelling each request as one atomic step against the shared
store, every run of requests has at most one non-admin request that
observes the successful claim transition on a given event; every other
non-admin request that gets a success response without contact cards
observes the record already claimed (the late message names a claimed
record). -/
theorem C1_at_most_one_winner (env : Env) (st : Store)
    (reqs : List (Request × Nat)) (ev : String) :
    winners env ev (runHandler env st reqs).1 ≤ 1 ∧
    ∀ p ∈ (runHandler env st reqs).1,
      isAdmin env p.1.passkey = false →
      ∀ (m : String) (e : Table), p.2 = Response.ok m e none →
        ∃ r : LockRecord, r.vCardsDownloaded = true ∧ m = lateMessage r :=
  ⟨run_winners_le_one env ev reqs st,
   fun p hp => run_late_observed env reqs st p hp⟩

/-- Witness for C1: two coordinators race on "Hackathon"; the run has
exactly one winner, and the second response is the late message naming the
first coordinator. -/
theorem C1_at_most_one_winner_witness :
    winners demoEnv "Hackathon"
      (runHandler demoEnv demoStore [(demoReqA, 10), (demoReqB, 20)]).1 ≤ 1 ∧
    (∃ r : LockRecord, r.vCardsDownloaded = true ∧
      lateMessage ⟨true, some "CoordA", some 10⟩ = lateMessage r) :=
  ⟨(C1_at_most_one_winner demoEnv demoStore [(demoReqA, 10), (demoReqB, 20)]
      "Hackathon").1,
   (C1_at_most_one_winner demoEnv demoStore [(demoReqA, 10), (demoReqB, 20)]
      "Hackathon").2
     (demoReqB, Response.ok (lateMessage ⟨true, some "CoordA", some 10⟩)
       (buildTable [hackReg]) none)
     (by decide) (by decide)
     (lateMessage ⟨true, some "CoordA", some 10⟩) (buildTable [hackReg]) rfl⟩

end Impetus9
